import Mathlib

/-!
Verification of the annotation state engine of the 68-keypoints annotation
tool (`keypoint_annotation_tool.py`, `convert_txt_to_json.py`).

Modelling conventions:
* Coordinates are rationals (`ℚ`); Python's `round(x, 6)` / `f"..6f"`
  formatting is modelled by `round6`, rounding to six decimal places.
* The in-memory annotation dictionary `self.keypoints_data` is modelled as
  a function `ℤ → Option (ℚ × ℚ)` (`Store`): `none` means an id is
  unannotated.  Python dict equality is key-order-insensitive, so the
  functional (extensional) view is adequate for every property below.
* Text-level tokenisation of the delimited `*.txt` format is abstracted to
  a `List ℚ` of the numeric tokens; JSON field access is modelled by
  `Option`-valued fields, `none` standing for a missing or non-numeric
  field (which raises in Python and aborts the loading loop).
* The image size needed by `ratio_to_pixel` during load is passed as two
  naturals `w h`; the conversion succeeds exactly when both are positive.
-/

/-- A ratio coordinate pair, as held in `self.keypoints_data`. -/
abbrev Coord := ℚ × ℚ

/-- The in-memory annotation store `self.keypoints_data`:
a mapping from keypoint id to ratio coordinate. -/
abbrev Store := ℤ → Option Coord

/-- The empty store (a freshly cleared `keypoints_data`). -/
def emptyStore : Store := fun _ => none

/-- `self.keypoints_data[k] = v` (dict insert / overwrite). -/
def setK (s : Store) (k : ℤ) (v : Coord) : Store :=
  fun k' => if k' = k then some v else s k'

/-- `del self.keypoints_data[k]` (dict delete). -/
def delK (s : Store) (k : ℤ) : Store :=
  fun k' => if k' = k then none else s k'

/-- Rounding to six decimal places: Python's `round(x, 6)` and the
`%.6f` formatting used when writing the delimited format. -/
def round6 (q : ℚ) : ℚ := (round (q * 1000000) : ℤ) / 1000000

/-- `round6` applied to both components of a coordinate. -/
def round6C (c : Coord) : Coord := (round6 c.1, round6 c.2)

/-- The store with every coordinate rounded to six decimals: what the
spec's round-trip property allows decode∘encode to return. -/
def round6Store (s : Store) : Store := fun k => (s k).map round6C

/-- `MainWindow.ratio_to_pixel`: multiplies a ratio coordinate by the
loaded image's pixel dimensions; returns `none` (Python `(None, None)`)
when the image size is unavailable, i.e. width or height is not positive. -/
def ratio_to_pixel (w h : ℕ) (c : Coord) : Option Coord :=
  if 0 < w ∧ 0 < h then some (c.1 * w, c.2 * h) else none

/-- `MainWindow.pixel_to_ratio`: divides a pixel coordinate by the loaded
image's pixel dimensions; `none` when the image size is unavailable. -/
def pixel_to_ratio (w h : ℕ) (px py : ℚ) : Option Coord :=
  if 0 < w ∧ 0 < h then some (px / w, py / h) else none

/-- The two tokens one keypoint id contributes in
`MainWindow._save_txt_annotations`: its coordinates formatted with
`%.6f`, or the sentinel pair `-1.000000 -1.000000` when unannotated. -/
def pairTokens (o : Option Coord) : List ℚ :=
  match o with
  | some (x, y) => [round6 x, round6 y]
  | none => [-1, -1]

/-- `MainWindow._save_txt_annotations` (content written to the `.txt`
file): the 136 numeric tokens for ids 1..68 in order. -/
def encodeDelimited (s : Store) : List ℚ :=
  (List.range 68).foldr (fun (i : ℕ) acc => pairTokens (s ((i : ℤ) + 1)) ++ acc) []

/-- A wrong-token-count failure of the delimited decoder, carrying the
expected and the actual token count named by the warning message. -/
structure FormatError where
  expected : ℕ
  actual : ℕ
deriving DecidableEq

/-- Warning text of `MainWindow._load_txt_annotations` for a wrong token
count. -/
def txtCountErrorMsg (n : ℕ) : String :=
  "TXT文件格式错误：应包含136个坐标值，实际" ++ toString n ++ "个"

/-- One loop iteration of `MainWindow._load_txt_annotations`: read the
pair of tokens for index `i` (id `i+1`), skip it when either component is
negative or when `ratio_to_pixel` fails, otherwise store the ratio pair. -/
def txtStep (coords : List ℚ) (w h : ℕ) (st : Store) (i : ℕ) : Store :=
  let ratio_x := coords.getD (i * 2) 0
  let ratio_y := coords.getD (i * 2 + 1) 0
  if ratio_x < 0 ∨ ratio_y < 0 then st
  else
    match ratio_to_pixel w h (ratio_x, ratio_y) with
    | none => st
    | some _ => setK st ((i : ℤ) + 1) (ratio_x, ratio_y)

/-- The store built by the loading loop of
`MainWindow._load_txt_annotations` (which starts from the cleared
`keypoints_data`). -/
def buildTxtStore (coords : List ℚ) (w h : ℕ) : Store :=
  (List.range 68).foldl (txtStep coords w h) emptyStore

/-- `MainWindow._load_txt_annotations`, decoding part: exactly 136 numeric
tokens are required, any other count is a `FormatError`. -/
def decodeDelimited (coords : List ℚ) (w h : ℕ) : Except FormatError Store :=
  if coords.length ≠ 136 then Except.error ⟨136, coords.length⟩
  else Except.ok (buildTxtStore coords w h)

/-- `MainWindow._load_txt_annotations` as the session sees it: the
resulting `keypoints_data` (cleared beforehand by `load_annotations`),
plus the warning message when the token count is wrong. -/
def loadTxtAnnotations (coords : List ℚ) (w h : ℕ) : Store × Option String :=
  match decodeDelimited coords w h with
  | Except.ok st => (st, none)
  | Except.error e => (emptyStore, some (txtCountErrorMsg e.actual))

/-- One entry of the `keypoints` list written by
`MainWindow._save_json_annotations`. -/
structure JsonKeypoint where
  id : ℤ
  x : ℚ
  y : ℚ
deriving DecidableEq

/-- The record written by `MainWindow._save_json_annotations`. -/
structure JsonRecord where
  image_name : String
  keypoints : List JsonKeypoint
deriving DecidableEq

/-- The `keypoints` entry emitted for index `i` (id `i+1`) by
`MainWindow._save_json_annotations`: coordinates rounded to 6 decimals,
sentinel `(-1, -1)` when unannotated. -/
def structEntry (s : Store) (i : ℕ) : JsonKeypoint :=
  match s ((i : ℤ) + 1) with
  | some c => ⟨(i : ℤ) + 1, round6 c.1, round6 c.2⟩
  | none => ⟨(i : ℤ) + 1, -1, -1⟩

/-- `MainWindow._save_json_annotations` (record written to the `.json`
file): entries for ids 1..68 in order plus the image file name. -/
def encodeStructured (s : Store) (imageName : String) : JsonRecord :=
  ⟨imageName, (List.range 68).map (structEntry s)⟩

/-- A keypoint object as read back from a JSON file by
`MainWindow._load_json_annotations`: a field is `none` when it is missing
or non-numeric (both raise in Python — `KeyError` on access, `TypeError`
on the `< 0` comparison — aborting the loading loop). -/
structure RawKeypoint where
  id : Option ℤ
  x : Option ℚ
  y : Option ℚ
deriving DecidableEq

/-- A raw keypoint all of whose fields are present and numeric; exactly
these entries get through one loop iteration without raising. -/
def RawKeypoint.wellFormed (k : RawKeypoint) : Prop :=
  k.id.isSome = true ∧ k.x.isSome = true ∧ k.y.isSome = true

instance (k : RawKeypoint) : Decidable k.wellFormed := by
  unfold RawKeypoint.wellFormed
  infer_instance

/-- View of an encoder-produced entry as read back from the file. -/
def toRaw (k : JsonKeypoint) : RawKeypoint := ⟨some k.id, some k.x, some k.y⟩

/-- The loading loop of `MainWindow._load_json_annotations` over the
`keypoints` list: a malformed entry raises, which aborts the loop keeping
the entries inserted so far and shows a warning dialog (the `Bool`);
sentinel / negative entries and entries whose `ratio_to_pixel`
conversion fails are skipped. -/
def loadJsonLoop (w h : ℕ) : List RawKeypoint → Store → Store × Bool
  | [], st => (st, false)
  | kp :: rest, st =>
    match kp.id, kp.x, kp.y with
    | some kpId, some ratio_x, some ratio_y =>
      if ratio_x < 0 ∨ ratio_y < 0 then loadJsonLoop w h rest st
      else
        match ratio_to_pixel w h (ratio_x, ratio_y) with
        | none => loadJsonLoop w h rest st
        | some _ => loadJsonLoop w h rest (setK st kpId (ratio_x, ratio_y))
    | _, _, _ => (st, true)

/-- `MainWindow._load_json_annotations` run on the cleared
`keypoints_data`: the resulting store and whether the failure warning was
shown. -/
def loadJsonAnnotations (kps : List RawKeypoint) (w h : ℕ) : Store × Bool :=
  loadJsonLoop w h kps emptyStore

/-- Failure text printed by `convert_txt_to_json` for a wrong token
count. -/
def convertCountErrorMsg (n : ℕ) : String :=
  "  ✗ 坐标数量不正确: " ++ toString n ++ "，期望136 (68个点x2)"

/-- `convert_txt_to_json` from `convert_txt_to_json.py`: the same
136-token check as the tool's loader, then the JSON record (every pair is
copied, rounded to six decimals, with no sentinel handling). -/
def convert_txt_to_json (coords : List ℚ) (imageName : String) :
    Except String JsonRecord :=
  if coords.length ≠ 136 then Except.error (convertCountErrorMsg coords.length)
  else
    Except.ok ⟨imageName,
      (List.range 68).map fun (i : ℕ) =>
        ⟨(i : ℤ) + 1, round6 (coords.getD (i * 2) 0),
          round6 (coords.getD (i * 2 + 1) 0)⟩⟩

/-- `MainWindow.swap_keypoints` (store effect): `pos1/pos2` are fetched with
`dict.get`; if both are present the values are exchanged, if only one is
present its value is moved to the other id and the source id deleted,
otherwise nothing happens. -/
def swap_keypoints (s : Store) (id1 id2 : ℤ) : Store :=
  match s id1, s id2 with
  | some pos1, some pos2 => setK (setK s id1 pos2) id2 pos1
  | some pos1, none => delK (setK s id2 pos1) id1
  | none, some pos2 => delK (setK s id1 pos2) id2
  | none, none => s

/-- `self.max_undo_steps` from `MainWindow.__init__`. -/
def max_undo_steps : ℕ := 10

/-- The session state held on the `MainWindow` object that the history
machinery touches: the live store, the two history stacks, the `auto_save`
flag, the persisted content of the current image's annotation file, and
the loaded image's pixel dimensions. -/
structure SessionState where
  keypoints_data : Store
  undo_stack : List Store
  redo_stack : List Store
  auto_save : Bool
  savedTxt : List ℚ
  imgW : ℕ
  imgH : ℕ

/-- `MainWindow.save_state`: push a copy of the live store on the undo
stack, evict the oldest entry (`pop(0)`) when the bound is exceeded, and
clear the redo stack. -/
def save_state (st : SessionState) : SessionState :=
  let undo1 := st.undo_stack ++ [st.keypoints_data]
  { st with
    undo_stack := if max_undo_steps < undo1.length then undo1.drop 1 else undo1,
    redo_stack := [] }

/-- Outcome of an undo/redo request: either a state was restored or the
relevant stack was empty (the "nothing to undo/redo" status message). -/
inductive HistoryResult where
  | restored
  | noneAvailable
deriving DecidableEq

/-- `MainWindow.undo`: when the undo stack is non-empty, push the live
store on the redo stack and restore the popped snapshot; the annotation
file is not written (the auto-save call is deliberately absent). -/
def undo (st : SessionState) : SessionState × HistoryResult :=
  match st.undo_stack.getLast? with
  | some prev =>
    ({ st with
        redo_stack := st.redo_stack ++ [st.keypoints_data],
        keypoints_data := prev,
        undo_stack := st.undo_stack.dropLast }, HistoryResult.restored)
  | none => (st, HistoryResult.noneAvailable)

/-- `MainWindow.redo`: symmetric to `undo`, operating on the redo stack
and pushing (without any bound check) onto the undo stack; the annotation
file is not written. -/
def redo (st : SessionState) : SessionState × HistoryResult :=
  match st.redo_stack.getLast? with
  | some next =>
    ({ st with
        undo_stack := st.undo_stack ++ [st.keypoints_data],
        keypoints_data := next,
        redo_stack := st.redo_stack.dropLast }, HistoryResult.restored)
  | none => (st, HistoryResult.noneAvailable)

/-- The user actions that touch the store, the history stacks or the
annotation file: `add`/`move` carry the pixel position reported by the
rendering surface; `deleteSel` is the delete of the selected id;
`clearOp` is a confirmed clear; `saveOp` is `save_annotations` in the
delimited format. -/
inductive Op where
  | add (id : ℤ) (px py : ℚ)
  | move (id : ℤ) (px py : ℚ)
  | deleteSel (id : ℤ)
  | swapOp (id1 id2 : ℤ)
  | clearOp
  | saveOp
  | undoOp
  | redoOp

/-- One user action applied to the session state, following the source
handlers: `on_keypoint_added` / `on_keypoint_moved` call `save_state`
first and abort (state already saved) when `pixel_to_ratio` fails;
`delete_selected_keypoint` acts only when the id is annotated;
`swap_keypoints` and a confirmed `clear_annotations` call `save_state`
then mutate; `save_annotations` writes the delimited encoding; `undo` and
`redo` are as above. -/
def step (st : SessionState) : Op → SessionState
  | Op.add id px py =>
    let st1 := save_state st
    (match pixel_to_ratio st.imgW st.imgH px py with
     | none => st1
     | some c => { st1 with keypoints_data := setK st1.keypoints_data id c })
  | Op.move id px py =>
    let st1 := save_state st
    (match pixel_to_ratio st.imgW st.imgH px py with
     | none => st1
     | some c => { st1 with keypoints_data := setK st1.keypoints_data id c })
  | Op.deleteSel id =>
    if (st.keypoints_data id).isSome then
      let st1 := save_state st
      { st1 with keypoints_data := delK st1.keypoints_data id }
    else st
  | Op.swapOp id1 id2 =>
    let st1 := save_state st
    { st1 with keypoints_data := swap_keypoints st1.keypoints_data id1 id2 }
  | Op.clearOp =>
    let st1 := save_state st
    { st1 with keypoints_data := emptyStore }
  | Op.saveOp => { st with savedTxt := encodeDelimited st.keypoints_data }
  | Op.undoOp => (undo st).1
  | Op.redoOp => (redo st).1

/-- A whole user session on one image: the actions applied in order. -/
def runOps (st : SessionState) (ops : List Op) : SessionState :=
  ops.foldl step st

/-- `save_state` invoked once per snapshot, as a sequence of mutations
would: each call sees the corresponding store live and pushes it. -/
def pushSnapshots (st : SessionState) (snaps : List Store) : SessionState :=
  snaps.foldl (fun s snap => save_state { s with keypoints_data := snap }) st

/-- `n` successive undo requests. -/
def undoN : ℕ → SessionState → SessionState
  | 0, st => st
  | n + 1, st => undoN n (undo st).1

/-- The mutating user actions that are not themselves undo/redo, in the
situation where they actually reach their mutation path: `deleteSel`
requires the id to be annotated (the handler is guarded by a membership
test), the others always run `save_state`. -/
def freshMutation (st : SessionState) : Op → Prop
  | Op.add _ _ _ => True
  | Op.move _ _ _ => True
  | Op.deleteSel id => (st.keypoints_data id).isSome = true
  | Op.swapOp _ _ => True
  | Op.clearOp => True
  | Op.saveOp => False
  | Op.undoOp => False
  | Op.redoOp => False

theorem setK_same (s : Store) (k : ℤ) (v : Coord) : setK s k v k = some v := by
  simp [setK]

theorem setK_other (s : Store) (k k' : ℤ) (v : Coord) (h : k' ≠ k) :
    setK s k v k' = s k' := by
  simp [setK, h]

theorem delK_same (s : Store) (k : ℤ) : delK s k k = none := by
  simp [delK]

theorem delK_other (s : Store) (k k' : ℤ) (h : k' ≠ k) : delK s k k' = s k' := by
  simp [delK, h]

/-- C2: `swap_keypoints` exchanges the entries held by `id1` and `id2`
(presence included: a value held by only one of the two ids moves to the
other and the source becomes absent, and two absent ids stay absent), and
no other id is affected — hence no annotated value is ever lost. -/
theorem C2_swap_spec (s : Store) (id1 id2 : ℤ)
    (_h1 : 1 ≤ id1 ∧ id1 ≤ 68) (_h2 : 1 ≤ id2 ∧ id2 ≤ 68) (hne : id1 ≠ id2) :
    swap_keypoints s id1 id2 id1 = s id2 ∧
    swap_keypoints s id1 id2 id2 = s id1 ∧
    ∀ k, k ≠ id1 → k ≠ id2 → swap_keypoints s id1 id2 k = s k := by
  rcases hs1 : s id1 with _ | pos1 <;> rcases hs2 : s id2 with _ | pos2 <;>
    simp only [swap_keypoints, hs1, hs2]
  · exact ⟨trivial, trivial, fun _ _ _ => trivial⟩
  · refine ⟨?_, ?_, ?_⟩
    · rw [delK_other _ _ _ hne, setK_same]
    · rw [delK_same]
    · intro k hk1 hk2
      rw [delK_other _ _ _ hk2, setK_other _ _ _ _ hk1]
  · refine ⟨?_, ?_, ?_⟩
    · rw [delK_same]
    · rw [delK_other _ _ _ hne.symm, setK_same]
    · intro k hk1 hk2
      rw [delK_other _ _ _ hk1, setK_other _ _ _ _ hk2]
  · refine ⟨?_, ?_, ?_⟩
    · rw [setK_other _ _ _ _ hne, setK_same]
    · rw [setK_same]
    · intro k hk1 hk2
      rw [setK_other _ _ _ _ hk2, setK_other _ _ _ _ hk1]

/-- The one-point store `{1: (0.1, 0.1)}` from the spec's swap example. -/
def swapExampleStore : Store := fun k => if k = 1 then some (1/10, 1/10) else none

/-- C2 witness: swapping ids 1 and 2 on `{1:(0.1,0.1)}` moves the value to
id 2, leaves id 1 absent, and touches no other id. -/
theorem C2_swap_spec_witness :
    swap_keypoints swapExampleStore 1 2 1 = swapExampleStore 2 ∧
    swap_keypoints swapExampleStore 1 2 2 = swapExampleStore 1 ∧
    swap_keypoints swapExampleStore 1 2 3 = swapExampleStore 3 := by
  have h := C2_swap_spec swapExampleStore 1 2 (by decide) (by decide) (by decide)
  exact ⟨h.1, h.2.1, h.2.2 3 (by decide) (by decide)⟩

/-- C4: a delimited input whose numeric token count is not 136 fails with
a `FormatError` naming expected 136 and the actual count, and the
in-memory store stays empty — no partial points are loaded. -/
theorem C4_wrong_token_count (coords : List ℚ) (w h : ℕ)
    (hlen : coords.length ≠ 136) :
    decodeDelimited coords w h = Except.error ⟨136, coords.length⟩ ∧
    loadTxtAnnotations coords w h =
      (emptyStore, some (txtCountErrorMsg coords.length)) := by
  refine ⟨?_, ?_⟩
  · simp [decodeDelimited, hlen]
  · simp [loadTxtAnnotations, decodeDelimited, hlen]

/-- C4 witness: a 135-token file yields the error naming 136 vs 135 and
an empty store. -/
theorem C4_wrong_token_count_witness :
    decodeDelimited (List.replicate 135 (0 : ℚ)) 800 600 =
      Except.error ⟨136, 135⟩ ∧
    loadTxtAnnotations (List.replicate 135 (0 : ℚ)) 800 600 =
      (emptyStore, some (txtCountErrorMsg 135)) := by
  have h := C4_wrong_token_count (List.replicate 135 (0 : ℚ)) 800 600 (by simp)
  simpa using h

/-- C8: undo and redo never write the annotation file: the persisted
content is unchanged by either, whatever the session state (in particular
whatever the `auto_save` flag) — persistence happens only through the
explicit/navigation save path (`Op.saveOp`). -/
theorem C8_undo_redo_no_persist (st : SessionState) :
    (undo st).1.savedTxt = st.savedTxt ∧
    (redo st).1.savedTxt = st.savedTxt ∧
    (step st Op.undoOp).savedTxt = st.savedTxt ∧
    (step st Op.redoOp).savedTxt = st.savedTxt := by
  refine ⟨?_, ?_, ?_, ?_⟩ <;>
    first
      | (show (undo st).1.savedTxt = st.savedTxt
         cases h : st.undo_stack.getLast? <;> simp [undo, h])
      | (show (redo st).1.savedTxt = st.savedTxt
         cases h : st.redo_stack.getLast? <;> simp [redo, h])

theorem save_state_redo (st : SessionState) : (save_state st).redo_stack = [] := rfl

theorem redo_on_empty (st : SessionState) (h : st.redo_stack = []) :
    (redo st).2 = HistoryResult.noneAvailable := by
  simp [redo, h]

/-- C7: every mutating operation that is not itself an undo or redo (an
add, a move, a delete of an annotated id, a swap, a confirmed clear)
leaves the redo stack empty, so a redo call issued right after it — in
particular after an undo followed by such a fresh mutation — finds the
redo stack empty and reports `noneAvailable`. -/
theorem C7_redo_invalidation (st : SessionState) (op : Op)
    (hop : freshMutation st op) :
    (step st op).redo_stack = [] ∧
    (redo (step st op)).2 = HistoryResult.noneAvailable := by
  have hmain : (step st op).redo_stack = [] := by
    cases op with
    | add id px py =>
      cases h : pixel_to_ratio st.imgW st.imgH px py <;>
        simp [step, h, save_state_redo]
    | move id px py =>
      cases h : pixel_to_ratio st.imgW st.imgH px py <;>
        simp [step, h, save_state_redo]
    | deleteSel id =>
      simp only [freshMutation] at hop
      simp [step, hop, save_state_redo]
    | swapOp id1 id2 => simp [step, save_state_redo]
    | clearOp => simp [step, save_state_redo]
    | saveOp => exact absurd hop (by simp [freshMutation])
    | undoOp => exact absurd hop (by simp [freshMutation])
    | redoOp => exact absurd hop (by simp [freshMutation])
  exact ⟨hmain, redo_on_empty _ hmain⟩

/-- A concrete session state: one annotated point, a undo snapshot and a
redo snapshot pending, auto-save on, image loaded at 800×600. -/
def exState : SessionState :=
  { keypoints_data := swapExampleStore
    undo_stack := [emptyStore]
    redo_stack := [emptyStore]
    auto_save := true
    savedTxt := []
    imgW := 800
    imgH := 600 }

/-- C7 witness: after an undo on `exState` followed by a confirmed clear,
the redo stack is empty and a redo call reports `noneAvailable`. -/
theorem C7_redo_invalidation_witness :
    (step (undo exState).1 Op.clearOp).redo_stack = [] ∧
    (redo (step (undo exState).1 Op.clearOp)).2 = HistoryResult.noneAvailable :=
  C7_redo_invalidation (undo exState).1 Op.clearOp trivial

theorem getLast?_some_ne_nil {α : Type _} {l : List α} {a : α}
    (h : l.getLast? = some a) : l ≠ [] := by
  rintro rfl
  simp at h

theorem step_histBound (st : SessionState) (op : Op)
    (h : st.undo_stack.length + st.redo_stack.length ≤ max_undo_steps) :
    (step st op).undo_stack.length + (step st op).redo_stack.length ≤
      max_undo_steps := by
  have hsave : ∀ s : SessionState,
      s.undo_stack.length + s.redo_stack.length ≤ max_undo_steps →
      (save_state s).undo_stack.length + (save_state s).redo_stack.length ≤
        max_undo_steps := by
    intro s hs
    simp only [save_state, List.length_append, List.length_cons,
      List.length_nil]
    split <;> (simp_all [max_undo_steps]; try omega)
  cases op with
  | add id px py =>
    cases hpr : pixel_to_ratio st.imgW st.imgH px py <;>
      simpa [step, hpr] using hsave st h
  | move id px py =>
    cases hpr : pixel_to_ratio st.imgW st.imgH px py <;>
      simpa [step, hpr] using hsave st h
  | deleteSel id =>
    by_cases hd : (st.keypoints_data id).isSome
    · simpa [step, hd] using hsave st h
    · simpa [step, hd] using h
  | swapOp id1 id2 => simpa [step] using hsave st h
  | clearOp => simpa [step] using hsave st h
  | saveOp => simpa [step] using h
  | undoOp =>
    cases hu : st.undo_stack.getLast? with
    | none => simpa [step, undo, hu] using h
    | some prev =>
      have hne := getLast?_some_ne_nil hu
      have hpos : 0 < st.undo_stack.length := List.length_pos.mpr hne
      simp only [step, undo, hu, List.length_dropLast, List.length_append,
        List.length_cons, List.length_nil]
      omega
  | redoOp =>
    cases hr : st.redo_stack.getLast? with
    | none => simpa [step, redo, hr] using h
    | some next =>
      have hne := getLast?_some_ne_nil hr
      have hpos : 0 < st.redo_stack.length := List.length_pos.mpr hne
      simp only [step, redo, hr, List.length_dropLast, List.length_append,
        List.length_cons, List.length_nil]
      omega

/-- C10: starting from a freshly loaded image (both history stacks
cleared by `load_current_image`), after any sequence of mutations, undos
and redos the combined size of the two stacks never exceeds
`max_undo_steps` — even though `redo` pushes onto the undo stack without
a bound check. -/
theorem C10_combined_history_bound (st : SessionState) (ops : List Op)
    (hu : st.undo_stack = []) (hr : st.redo_stack = []) :
    (runOps st ops).undo_stack.length + (runOps st ops).redo_stack.length ≤
      max_undo_steps := by
  have base : st.undo_stack.length + st.redo_stack.length ≤ max_undo_steps := by
    simp [hu, hr, max_undo_steps]
  clear hu hr
  induction ops generalizing st with
  | nil => simpa [runOps] using base
  | cons op rest ih =>
    have hstep := step_histBound st op base
    simpa [runOps, List.foldl_cons] using ih (step st op) hstep

/-- The session state right after an image load: empty stacks. -/
def freshState : SessionState :=
  { keypoints_data := emptyStore
    undo_stack := []
    redo_stack := []
    auto_save := true
    savedTxt := []
    imgW := 800
    imgH := 600 }

/-- C10 witness: a concrete 14-action session (12 mutations, an undo and
a redo) started on a fresh image keeps the combined stack size within 10. -/
theorem C10_combined_history_bound_witness :
    (runOps freshState
        [Op.clearOp, Op.clearOp, Op.clearOp, Op.clearOp, Op.clearOp,
         Op.clearOp, Op.clearOp, Op.clearOp, Op.clearOp, Op.clearOp,
         Op.clearOp, Op.clearOp, Op.undoOp, Op.redoOp]).undo_stack.length +
      (runOps freshState
        [Op.clearOp, Op.clearOp, Op.clearOp, Op.clearOp, Op.clearOp,
         Op.clearOp, Op.clearOp, Op.clearOp, Op.clearOp, Op.clearOp,
         Op.clearOp, Op.clearOp, Op.undoOp, Op.redoOp]).redo_stack.length ≤
      max_undo_steps :=
  C10_combined_history_bound freshState _ rfl rfl

/-- C9 counterexample: for the same wrong token count (135), the batch
converter's message and the tool loader's message are different strings,
so the converter does not produce the identical error message. -/
theorem C9_counterexample : convertCountErrorMsg 135 ≠ txtCountErrorMsg 135 := by
  decide

/-- C9 (amended): the batch converter rejects exactly the inputs the
core decoder rejects — any token count other than 136 — but each side
emits its own message text (`convertCountErrorMsg` vs
`txtCountErrorMsg`), which differ. -/
theorem C9_same_rule_distinct_message (coords : List ℚ) (w h : ℕ)
    (imgName : String) (hlen : coords.length ≠ 136) :
    convert_txt_to_json coords imgName =
      Except.error (convertCountErrorMsg coords.length) ∧
    decodeDelimited coords w h = Except.error ⟨136, coords.length⟩ ∧
    loadTxtAnnotations coords w h =
      (emptyStore, some (txtCountErrorMsg coords.length)) ∧
    convertCountErrorMsg coords.length ≠ txtCountErrorMsg coords.length := by
  refine ⟨?_, ?_, ?_, ?_⟩
  · simp [convert_txt_to_json, hlen]
  · simp [decodeDelimited, hlen]
  · simp [loadTxtAnnotations, decodeDelimited, hlen]
  · intro hcontra
    have h0 : (convertCountErrorMsg coords.length).data.take 1 =
        (txtCountErrorMsg coords.length).data.take 1 := by rw [hcontra]
    simp [convertCountErrorMsg, txtCountErrorMsg, String.data_append] at h0

theorem loadJsonLoop_append (w h : ℕ) (kp : RawKeypoint)
    (rest : List RawKeypoint) (hkp : ¬ kp.wellFormed) :
    ∀ (pre : List RawKeypoint) (st : Store), (∀ k ∈ pre, k.wellFormed) →
      loadJsonLoop w h (pre ++ kp :: rest) st =
        ((loadJsonLoop w h pre st).1, true)
  | [], st, _ => by
    cases kp with
    | mk kid kx ky =>
      rcases kid with _ | i
      · simp [loadJsonLoop]
      · rcases kx with _ | x
        · simp [loadJsonLoop]
        · rcases ky with _ | y
          · simp [loadJsonLoop]
          · exact absurd ⟨rfl, rfl, rfl⟩ hkp
  | k :: pre', st, hpre => by
    have hk : k.wellFormed := hpre k (by simp)
    have hpre' : ∀ k ∈ pre', k.wellFormed :=
      fun k hmem => hpre k (List.mem_cons_of_mem _ hmem)
    cases k with
    | mk kid kx ky =>
      rcases kid with _ | i
      · exact absurd hk (by simp [RawKeypoint.wellFormed])
      · rcases kx with _ | x
        · exact absurd hk (by simp [RawKeypoint.wellFormed])
        · rcases ky with _ | y
          · exact absurd hk (by simp [RawKeypoint.wellFormed])
          · simp only [List.cons_append, loadJsonLoop]
            by_cases hneg : x < 0 ∨ y < 0
            · simp only [if_pos hneg]
              exact loadJsonLoop_append w h kp rest hkp pre' st hpre'
            · simp only [if_neg hneg]
              cases hpix : ratio_to_pixel w h (x, y)
              · exact loadJsonLoop_append w h kp rest hkp pre' st hpre'
              · exact loadJsonLoop_append w h kp rest hkp pre' _ hpre'

/-- C5 counterexample: a structured record whose second keypoint entry
has a missing `x` field triggers the warning, yet the first (valid) entry
stays loaded — the resulting store is not empty — and the entries after
the malformed one are never processed. -/
theorem C5_counterexample :
    (loadJsonAnnotations
        [⟨some 1, some 0, some 0⟩, ⟨some 2, none, some 0⟩,
         ⟨some 3, some 0, some 0⟩] 800 600).2 = true ∧
    (loadJsonAnnotations
        [⟨some 1, some 0, some 0⟩, ⟨some 2, none, some 0⟩,
         ⟨some 3, some 0, some 0⟩] 800 600).1 1 = some (0, 0) ∧
    (loadJsonAnnotations
        [⟨some 1, some 0, some 0⟩, ⟨some 2, none, some 0⟩,
         ⟨some 3, some 0, some 0⟩] 800 600).1 1 ≠ emptyStore 1 ∧
    (loadJsonAnnotations
        [⟨some 1, some 0, some 0⟩, ⟨some 2, none, some 0⟩,
         ⟨some 3, some 0, some 0⟩] 800 600).1 3 = none := by
  refine ⟨rfl, rfl, ?_, rfl⟩
  decide

/-- C5 (amended): a malformed field partway through the keypoints list
makes decoding report the `FormatError` warning, but the session keeps
the entries decoded before the malformed one (and ignores those after
it); the store is not reset to empty. -/
theorem C5_malformed_keeps_prefix (pre : List RawKeypoint) (kp : RawKeypoint)
    (rest : List RawKeypoint) (w h : ℕ)
    (hpre : ∀ k ∈ pre, k.wellFormed) (hkp : ¬ kp.wellFormed) :
    loadJsonAnnotations (pre ++ kp :: rest) w h =
      ((loadJsonAnnotations pre w h).1, true) := by
  unfold loadJsonAnnotations
  exact loadJsonLoop_append w h kp rest hkp pre emptyStore hpre

/-- C5 witness: the amended statement at the counterexample's record. -/
theorem C5_malformed_keeps_prefix_witness :
    loadJsonAnnotations
        ([⟨some 1, some 0, some 0⟩] ++ ⟨some 2, none, some 0⟩ ::
          [⟨some 3, some 0, some 0⟩]) 800 600 =
      ((loadJsonAnnotations [⟨some 1, some 0, some 0⟩] 800 600).1, true) :=
  C5_malformed_keeps_prefix [⟨some 1, some 0, some 0⟩] ⟨some 2, none, some 0⟩
    [⟨some 3, some 0, some 0⟩] 800 600 (by decide) (by decide)

theorem foldl_inv_mem {α σ : Type _} (P : σ → Prop) (f : σ → α → σ) :
    ∀ l : List α, (∀ s a, a ∈ l → P s → P (f s a)) → ∀ s, P s → P (l.foldl f s)
  | [], _, _, hs => hs
  | a :: l, hf, s, hs =>
    foldl_inv_mem P f l (fun s b hb => hf s b (List.mem_cons_of_mem _ hb))
      (f s a) (hf s a (by simp) hs)

theorem txtStep_nonneg (coords : List ℚ) (w h : ℕ) (st : Store) (i : ℕ)
    (hst : ∀ id x y, st id = some (x, y) → 0 ≤ x ∧ 0 ≤ y) :
    ∀ id x y, txtStep coords w h st i id = some (x, y) → 0 ≤ x ∧ 0 ≤ y := by
  intro id x y hid
  simp only [txtStep] at hid
  by_cases hneg : coords.getD (i * 2) 0 < 0 ∨ coords.getD (i * 2 + 1) 0 < 0
  · rw [if_pos hneg] at hid
    exact hst id x y hid
  · rw [if_neg hneg] at hid
    push_neg at hneg
    cases hpix : ratio_to_pixel w h (coords.getD (i * 2) 0, coords.getD (i * 2 + 1) 0) with
    | none =>
      rw [hpix] at hid
      exact hst id x y hid
    | some c =>
      rw [hpix] at hid
      replace hid : setK st ((i : ℤ) + 1)
          (coords.getD (i * 2) 0, coords.getD (i * 2 + 1) 0) id = some (x, y) := hid
      by_cases hkey : id = (i : ℤ) + 1
      · rw [hkey, setK_same] at hid
        simp only [Option.some.injEq, Prod.mk.injEq] at hid
        exact ⟨hid.1 ▸ hneg.1, hid.2 ▸ hneg.2⟩
      · rw [setK_other _ _ _ _ hkey] at hid
        exact hst id x y hid

theorem txtStep_keeps_none (coords : List ℚ) (w h : ℕ) (st : Store)
    (i j : ℕ)
    (hneg : coords.getD (i * 2) 0 < 0 ∨ coords.getD (i * 2 + 1) 0 < 0)
    (hst : st ((i : ℤ) + 1) = none) :
    txtStep coords w h st j ((i : ℤ) + 1) = none := by
  simp only [txtStep]
  by_cases hnegj : coords.getD (j * 2) 0 < 0 ∨ coords.getD (j * 2 + 1) 0 < 0
  · rw [if_pos hnegj]; exact hst
  · rw [if_neg hnegj]
    cases hpix : ratio_to_pixel w h (coords.getD (j * 2) 0, coords.getD (j * 2 + 1) 0) with
    | none => exact hst
    | some c =>
      show setK st ((j : ℤ) + 1) (coords.getD (j * 2) 0, coords.getD (j * 2 + 1) 0)
          ((i : ℤ) + 1) = none
      by_cases hij : ((i : ℤ) + 1) = ((j : ℤ) + 1)
      · exfalso
        have : i = j := by omega
        subst this
        exact hnegj hneg
      · rw [setK_other _ _ _ _ hij]
        exact hst

/-- A raw keypoint that actually causes an insertion at id `i`: its id
field says `i`, both coordinates are present, and neither is negative. -/
def insertsAt (kp : RawKeypoint) (i : ℤ) : Prop :=
  kp.id = some i ∧ kp.x.isSome = true ∧ kp.y.isSome = true ∧
    0 ≤ kp.x.getD 0 ∧ 0 ≤ kp.y.getD 0

instance (kp : RawKeypoint) (i : ℤ) : Decidable (insertsAt kp i) := by
  unfold insertsAt
  infer_instance

theorem loadJsonLoop_nonneg (w h : ℕ) :
    ∀ (kps : List RawKeypoint) (st : Store),
      (∀ id x y, st id = some (x, y) → 0 ≤ x ∧ 0 ≤ y) →
      ∀ id x y, (loadJsonLoop w h kps st).1 id = some (x, y) → 0 ≤ x ∧ 0 ≤ y
  | [], _, hst => hst
  | kp :: rest, st, hst => by
    cases kp with
    | mk kid kx ky =>
      rcases kid with _ | i
      · exact fun id x y hid => hst id x y hid
      · rcases kx with _ | cx
        · exact fun id x y hid => hst id x y hid
        · rcases ky with _ | cy
          · exact fun id x y hid => hst id x y hid
          · simp only [loadJsonLoop]
            by_cases hneg : cx < 0 ∨ cy < 0
            · rw [if_pos hneg]
              exact loadJsonLoop_nonneg w h rest st hst
            · rw [if_neg hneg]
              push_neg at hneg
              cases hpix : ratio_to_pixel w h (cx, cy) with
              | none => exact loadJsonLoop_nonneg w h rest st hst
              | some c =>
                refine loadJsonLoop_nonneg w h rest _ ?_
                intro id x y hid
                by_cases hkey : id = i
                · rw [hkey, setK_same] at hid
                  obtain ⟨hx, hy⟩ := Prod.mk.injEq .. ▸ (Option.some.injEq .. ▸ hid)
                  exact ⟨hx ▸ hneg.1, hy ▸ hneg.2⟩
                · rw [setK_other _ _ _ _ hkey] at hid
                  exact hst id x y hid

theorem loadJsonLoop_absent (w h : ℕ) (id : ℤ) :
    ∀ (kps : List RawKeypoint) (st : Store),
      (∀ kp ∈ kps, ¬ insertsAt kp id) → st id = none →
      (loadJsonLoop w h kps st).1 id = none
  | [], _, _, hst => hst
  | kp :: rest, st, hkps, hst => by
    have hrest : ∀ kp ∈ rest, ¬ insertsAt kp id :=
      fun k hk => hkps k (List.mem_cons_of_mem _ hk)
    cases kp with
    | mk kid kx ky =>
      rcases kid with _ | i
      · exact hst
      · rcases kx with _ | cx
        · exact hst
        · rcases ky with _ | cy
          · exact hst
          · simp only [loadJsonLoop]
            by_cases hneg : cx < 0 ∨ cy < 0
            · rw [if_pos hneg]
              exact loadJsonLoop_absent w h id rest st hrest hst
            · rw [if_neg hneg]
              push_neg at hneg
              cases hpix : ratio_to_pixel w h (cx, cy) with
              | none => exact loadJsonLoop_absent w h id rest st hrest hst
              | some c =>
                refine loadJsonLoop_absent w h id rest _ hrest ?_
                by_cases hkey : id = i
                · exfalso
                  exact hkps ⟨some i, some cx, some cy⟩ (by simp)
                    ⟨by rw [hkey], rfl, rfl, hneg.1, hneg.2⟩
                · rw [setK_other _ _ _ _ hkey]
                  exact hst

/-- C3: neither decoder ever inserts an entry with a negative coordinate
component: every value present after a delimited or structured load is
componentwise non-negative; a delimited id whose on-disk pair has a
negative component is absent from the result, and so is a structured id
none of whose file entries carries a present, non-negative pair. -/
theorem C3_sentinel_exclusion (w h : ℕ) :
    (∀ (coords : List ℚ) (id : ℤ) (x y : ℚ),
        buildTxtStore coords w h id = some (x, y) → 0 ≤ x ∧ 0 ≤ y) ∧
    (∀ (coords : List ℚ) (i : ℕ),
        coords.getD (i * 2) 0 < 0 ∨ coords.getD (i * 2 + 1) 0 < 0 →
        buildTxtStore coords w h ((i : ℤ) + 1) = none) ∧
    (∀ (kps : List RawKeypoint) (id : ℤ) (x y : ℚ),
        (loadJsonAnnotations kps w h).1 id = some (x, y) → 0 ≤ x ∧ 0 ≤ y) ∧
    (∀ (kps : List RawKeypoint) (id : ℤ),
        (∀ kp ∈ kps, ¬ insertsAt kp id) →
        (loadJsonAnnotations kps w h).1 id = none) := by
  refine ⟨?_, ?_, ?_, ?_⟩
  · intro coords id x y hid
    refine foldl_inv_mem
      (fun st => ∀ id x y, st id = some (x, y) → 0 ≤ x ∧ 0 ≤ y)
      (txtStep coords w h) (List.range 68)
      (fun st j _ hst => txtStep_nonneg coords w h st j hst)
      emptyStore (fun id x y h0 => by simp [emptyStore] at h0)
      id x y hid
  · intro coords i hneg
    exact foldl_inv_mem (fun st => st ((i : ℤ) + 1) = none)
      (txtStep coords w h) (List.range 68)
      (fun st j _ hst => txtStep_keeps_none coords w h st i j hneg hst)
      emptyStore rfl
  · intro kps id x y hid
    exact loadJsonLoop_nonneg w h kps emptyStore
      (fun id x y h0 => by simp [emptyStore] at h0) id x y hid
  · intro kps id hkps
    exact loadJsonLoop_absent w h id kps emptyStore hkps rfl

/-- The tokens of a delimited file whose id 1 is `(0, 0)` and whose ids
2..68 — id 5 among them — hold the sentinel `(-1, -1)`. -/
def c3coords : List ℚ := (0 : ℚ) :: 0 :: List.replicate 134 (-1)

/-- A structured keypoints list where id 1 is valid and id 5 holds the
sentinel `(-1, -1)`. -/
def sentinelKps : List RawKeypoint :=
  [⟨some 1, some 0, some 0⟩, ⟨some 5, some (-1), some (-1)⟩]

/-- C3 witness: on `c3coords` the loaded value of id 1 is non-negative
and id 5 (sentinel pair) is absent; likewise on `sentinelKps`. -/
theorem C3_sentinel_exclusion_witness :
    ((0 : ℚ) ≤ 0 ∧ (0 : ℚ) ≤ 0) ∧
    buildTxtStore c3coords 800 600 (((4 : ℕ) : ℤ) + 1) = none ∧
    (loadJsonAnnotations sentinelKps 800 600).1 5 = none := by
  refine ⟨?_, ?_, ?_⟩
  · exact (C3_sentinel_exclusion 800 600).1 c3coords 1 0 0 (by decide)
  · exact (C3_sentinel_exclusion 800 600).2.1 c3coords 4 (by decide)
  · exact (C3_sentinel_exclusion 800 600).2.2.2 sentinelKps 5 (by decide)

theorem undo_keeps_membership (L : List Store) (st : SessionState)
    (hkp : st.keypoints_data ∈ L) (hstack : ∀ x ∈ st.undo_stack, x ∈ L) :
    (undo st).1.keypoints_data ∈ L ∧ ∀ x ∈ (undo st).1.undo_stack, x ∈ L := by
  cases hu : st.undo_stack.getLast? with
  | none =>
    simp only [undo, hu]
    exact ⟨hkp, hstack⟩
  | some prev =>
    have hprev : prev ∈ st.undo_stack := by
      obtain ⟨hne, heq⟩ :=
        List.mem_getLast?_eq_getLast (Option.mem_def.mpr hu)
      exact heq ▸ List.getLast_mem hne
    simp only [undo, hu]
    exact ⟨hstack prev hprev, fun x hx => hstack x (List.dropLast_subset _ hx)⟩

theorem undoN_mem (L : List Store) : ∀ (n : ℕ) (st : SessionState),
    st.keypoints_data ∈ L → (∀ x ∈ st.undo_stack, x ∈ L) →
    (undoN n st).keypoints_data ∈ L
  | 0, _, hkp, _ => hkp
  | n + 1, st, hkp, hstack => by
    obtain ⟨h1, h2⟩ := undo_keeps_membership L st hkp hstack
    exact undoN_mem L n (undo st).1 h1 h2

theorem pushSnapshots_undo_stack (snaps : List Store) : ∀ st : SessionState,
    st.undo_stack.length ≤ max_undo_steps →
    (pushSnapshots st snaps).undo_stack =
      (st.undo_stack ++ snaps).drop
        (st.undo_stack.length + snaps.length - max_undo_steps) := by
  induction snaps with
  | nil =>
    intro st hle
    have h0 : st.undo_stack.length - max_undo_steps = 0 := by
      simp only [max_undo_steps] at hle ⊢
      omega
    simp [pushSnapshots, h0]
  | cons a snaps ih =>
    intro st hle
    show (pushSnapshots (save_state { st with keypoints_data := a }) snaps).undo_stack = _
    have hlen1 : (st.undo_stack ++ [a]).length = st.undo_stack.length + 1 := by simp
    by_cases hlt : max_undo_steps < st.undo_stack.length + 1
    · have hu' : (save_state { st with keypoints_data := a }).undo_stack
          = (st.undo_stack ++ [a]).drop 1 := by
        simp only [save_state]
        rw [if_pos (by simpa [hlen1] using hlt)]
      have hle' : ((st.undo_stack ++ [a]).drop 1).length ≤ max_undo_steps := by
        simp only [List.length_drop, hlen1]
        omega
      rw [ih _ (by rw [hu']; exact hle'), hu']
      have hsplit : (st.undo_stack ++ [a]).drop 1 ++ snaps
          = ((st.undo_stack ++ [a]) ++ snaps).drop 1 :=
        (List.drop_append_of_le_length (by simp)).symm
      rw [hsplit, List.drop_drop]
      have hlists : (st.undo_stack ++ [a]) ++ snaps = st.undo_stack ++ a :: snaps := by
        simp
      rw [hlists]
      have hcount : 1 + (((st.undo_stack ++ [a]).drop 1).length + snaps.length
            - max_undo_steps)
          = st.undo_stack.length + (a :: snaps).length - max_undo_steps := by
        simp only [List.length_drop, hlen1, List.length_cons, max_undo_steps] at hle hlt ⊢
        omega
      rw [hcount]
    · have hu' : (save_state { st with keypoints_data := a }).undo_stack
          = st.undo_stack ++ [a] := by
        simp only [save_state]
        rw [if_neg (by simpa [hlen1] using hlt)]
      have hle' : (st.undo_stack ++ [a]).length ≤ max_undo_steps := by
        simp only [hlen1, max_undo_steps] at hlt ⊢
        omega
      rw [ih _ (by rw [hu']; exact hle'), hu']
      have hlists : (st.undo_stack ++ [a]) ++ snaps = st.undo_stack ++ a :: snaps := by
        simp
      rw [hlists]
      have hcount : (st.undo_stack ++ [a]).length + snaps.length - max_undo_steps
          = st.undo_stack.length + (a :: snaps).length - max_undo_steps := by
        simp only [hlen1, List.length_cons, max_undo_steps]
        omega
      rw [hcount]

theorem pushSnapshots_kp_mem : ∀ (snaps : List Store) (st : SessionState),
    snaps ≠ [] →
    (pushSnapshots st snaps).keypoints_data ∈ (pushSnapshots st snaps).undo_stack
  | [], _, hne => absurd rfl hne
  | a :: snaps, st, _ => by
    rcases snaps with _ | ⟨b, snaps⟩
    · show (save_state { st with keypoints_data := a }).keypoints_data
        ∈ (save_state { st with keypoints_data := a }).undo_stack
      simp only [save_state]
      split
      · next hgt =>
        have hlen : 1 ≤ st.undo_stack.length := by
          simp only [List.length_append, List.length_cons, List.length_nil,
            max_undo_steps] at hgt
          omega
        rw [List.drop_append_of_le_length hlen]
        simp
      · simp
    · exact pushSnapshots_kp_mem (b :: snaps)
        (save_state { st with keypoints_data := a }) (by simp)

/-- C6: pushing 12 snapshots through `save_state` onto an empty undo
stack leaves exactly the 10 most recent, in order (the oldest 2 are
evicted at the bottom), and no sequence of undos can ever make one of the
evicted snapshots the live store again: every store reachable by undoing
is among the 10 kept snapshots. -/
theorem C6_undo_depth_bound (st0 : SessionState) (snaps : List Store)
    (hu : st0.undo_stack = []) (hlen : snaps.length = 12) :
    (pushSnapshots st0 snaps).undo_stack = snaps.drop 2 ∧
    ∀ n, (undoN n (pushSnapshots st0 snaps)).keypoints_data ∈ snaps.drop 2 := by
  have hstack := pushSnapshots_undo_stack snaps st0
    (by rw [hu]; simp [max_undo_steps])
  rw [hu] at hstack
  simp only [List.nil_append, List.length_nil, Nat.zero_add, hlen,
    max_undo_steps] at hstack
  have hkp := pushSnapshots_kp_mem snaps st0 (by rintro rfl; simp at hlen)
  rw [hstack] at hkp
  refine ⟨hstack, fun n => ?_⟩
  exact undoN_mem (snaps.drop 2) n (pushSnapshots st0 snaps) hkp
    (fun x hx => by rw [hstack] at hx; exact hx)

/-- C6 witness: the theorem at twelve concrete snapshots pushed on a
fresh session, with eleven undos attempted afterwards. -/
theorem C6_undo_depth_bound_witness :
    (pushSnapshots freshState (List.replicate 12 swapExampleStore)).undo_stack
      = (List.replicate 12 swapExampleStore).drop 2 ∧
    (undoN 11 (pushSnapshots freshState
        (List.replicate 12 swapExampleStore))).keypoints_data
      ∈ (List.replicate 12 swapExampleStore).drop 2 := by
  have h := C6_undo_depth_bound freshState (List.replicate 12 swapExampleStore)
    rfl (by simp)
  exact ⟨h.1, h.2 11⟩

theorem round6_nonneg (q : ℚ) (h : 0 ≤ q) : 0 ≤ round6 q := by
  unfold round6
  apply div_nonneg _ (by norm_num)
  have h0 : (0 : ℤ) ≤ round (q * 1000000) := by
    rw [round_eq]
    apply Int.floor_nonneg.mpr
    have : (0 : ℚ) ≤ q * 1000000 := by positivity
    linarith
  exact_mod_cast h0

theorem pairTokens_length (o : Option Coord) : (pairTokens o).length = 2 := by
  rcases o with _ | ⟨x, y⟩ <;> rfl

theorem encTokens_length (s : Store) :
    ∀ (n a : ℕ),
      ((List.range' a n).foldr
        (fun (i : ℕ) acc => pairTokens (s ((i : ℤ) + 1)) ++ acc) []).length = 2 * n
  | 0, a => by simp
  | n + 1, a => by
    rw [List.range'_succ]
    show (pairTokens (s ((a : ℤ) + 1)) ++
        (List.range' (a + 1) n).foldr
          (fun (i : ℕ) acc => pairTokens (s ((i : ℤ) + 1)) ++ acc) []).length = 2 * (n + 1)
    rw [List.length_append, pairTokens_length, encTokens_length s n (a + 1)]
    omega

theorem encodeDelimited_length (s : Store) : (encodeDelimited s).length = 136 := by
  show ((List.range 68).foldr
      (fun (i : ℕ) acc => pairTokens (s ((i : ℤ) + 1)) ++ acc) []).length = 136
  rw [List.range_eq_range' 68, encTokens_length s 68 0]

theorem encTokens_getD (s : Store) :
    ∀ (n a j : ℕ), j < n →
      ((List.range' a n).foldr
          (fun (i : ℕ) acc => pairTokens (s ((i : ℤ) + 1)) ++ acc) []).getD (j * 2) 0
        = (pairTokens (s (((a + j : ℕ) : ℤ) + 1))).getD 0 0 ∧
      ((List.range' a n).foldr
          (fun (i : ℕ) acc => pairTokens (s ((i : ℤ) + 1)) ++ acc) []).getD (j * 2 + 1) 0
        = (pairTokens (s (((a + j : ℕ) : ℤ) + 1))).getD 1 0
  | 0, a, j, hj => absurd hj (by omega)
  | n + 1, a, 0, _ => by
    rw [List.range'_succ]
    show ((pairTokens (s ((a : ℤ) + 1)) ++ _).getD (0 * 2) 0 = _) ∧
      ((pairTokens (s ((a : ℤ) + 1)) ++ _).getD (0 * 2 + 1) 0 = _)
    constructor
    · rw [show (0 * 2 : ℕ) = 0 from rfl,
        List.getD_append _ _ _ _ (by rw [pairTokens_length]; omega)]
      norm_num
    · rw [show (0 * 2 + 1 : ℕ) = 1 from rfl,
        List.getD_append _ _ _ _ (by rw [pairTokens_length]; omega)]
      norm_num
  | n + 1, a, j + 1, hj => by
    rw [List.range'_succ]
    show ((pairTokens (s ((a : ℤ) + 1)) ++ _).getD ((j + 1) * 2) 0 = _) ∧
      ((pairTokens (s ((a : ℤ) + 1)) ++ _).getD ((j + 1) * 2 + 1) 0 = _)
    have hsum : a + 1 + j = a + (j + 1) := by omega
    obtain ⟨ih0, ih1⟩ := encTokens_getD s n (a + 1) j (by omega)
    constructor
    · rw [List.getD_append_right _ _ _ _ (by rw [pairTokens_length]; omega),
        pairTokens_length, show ((j + 1) * 2 - 2 : ℕ) = j * 2 by omega, ih0, hsum]
    · rw [List.getD_append_right _ _ _ _ (by rw [pairTokens_length]; omega),
        pairTokens_length, show ((j + 1) * 2 + 1 - 2 : ℕ) = j * 2 + 1 by omega,
        ih1, hsum]

theorem window_shift (a n : ℕ) (id : ℤ) (hid : id ≠ (a : ℤ) + 1) (P : Prop) :
    (((a + 1 : ℕ) : ℤ) + 1 ≤ id ∧ id ≤ ((a + 1 : ℕ) : ℤ) + (n : ℤ) ∧ P)
      ↔ ((a : ℤ) + 1 ≤ id ∧ id ≤ (a : ℤ) + ((n + 1 : ℕ) : ℤ) ∧ P) := by
  constructor
  · rintro ⟨h1, h2, h3⟩
    refine ⟨?_, ?_, h3⟩ <;> push_cast at h1 h2 ⊢ <;> omega
  · rintro ⟨h1, h2, h3⟩
    refine ⟨?_, ?_, h3⟩ <;> push_cast at h1 h2 ⊢ <;> omega

theorem txtLoad_enc (s : Store) (w h : ℕ)
    (hVal : ∀ k x y, s k = some (x, y) → 0 ≤ x ∧ x ≤ 1 ∧ 0 ≤ y ∧ y ≤ 1)
    (hw : 0 < w) (hh : 0 < h) :
    ∀ (n a : ℕ), a + n ≤ 68 → ∀ (st0 : Store) (id : ℤ),
      (List.range' a n).foldl (txtStep (encodeDelimited s) w h) st0 id
        = if (a : ℤ) + 1 ≤ id ∧ id ≤ (a : ℤ) + (n : ℤ) ∧ (s id).isSome = true
          then round6Store s id else st0 id
  | 0, a, _, st0, id => by
    rw [List.range'_zero, List.foldl_nil,
      if_neg (by rintro ⟨h1, h2, _⟩; omega)]
  | n + 1, a, hle, st0, id => by
    rw [List.range'_succ, List.foldl_cons,
      txtLoad_enc s w h hVal hw hh n (a + 1) (by omega)
        (txtStep (encodeDelimited s) w h st0 a) id]
    obtain ⟨hacc0, hacc1⟩ := encTokens_getD s 68 0 a (by omega)
    rw [show (0 + a : ℕ) = a from by omega] at hacc0 hacc1
    have henc : (List.range' 0 68).foldr
        (fun (i : ℕ) acc => pairTokens (s ((i : ℤ) + 1)) ++ acc) []
        = encodeDelimited s := by
      rw [encodeDelimited, List.range_eq_range' 68]
    rw [henc] at hacc0 hacc1
    cases hs : s ((a : ℤ) + 1) with
    | none =>
      have hstep : txtStep (encodeDelimited s) w h st0 a id = st0 id := by
        simp only [txtStep, hacc0, hacc1, hs, pairTokens]
        rw [if_pos (Or.inl (by norm_num))]
      rw [hstep]
      by_cases hid : id = (a : ℤ) + 1
      · subst hid
        rw [if_neg (by rintro ⟨h1, _, _⟩; push_cast at h1; omega),
          if_neg (by rintro ⟨_, _, h3⟩; rw [hs] at h3; simp at h3)]
      · rw [if_congr (window_shift a n id hid ((s id).isSome = true)) rfl rfl]
    | some c =>
      obtain ⟨x, y⟩ := c
      obtain ⟨hx0, hx1, hy0, hy1⟩ := hVal _ _ _ hs
      have h0x : 0 ≤ round6 x := round6_nonneg x hx0
      have h0y : 0 ≤ round6 y := round6_nonneg y hy0
      have hstep : txtStep (encodeDelimited s) w h st0 a
          = setK st0 ((a : ℤ) + 1) (round6 x, round6 y) := by
        simp only [txtStep, hacc0, hacc1, hs, pairTokens, List.getD_cons_zero,
          List.getD_cons_succ]
        rw [if_neg (by push_neg; exact ⟨h0x, h0y⟩)]
        simp [ratio_to_pixel, hw, hh]
      rw [hstep]
      by_cases hid : id = (a : ℤ) + 1
      · subst hid
        rw [setK_same,
          if_neg (by rintro ⟨h1, _, _⟩; push_cast at h1; omega),
          if_pos ⟨by omega, by push_cast; omega, by rw [hs]; rfl⟩]
        simp [round6Store, hs, round6C]
      · rw [setK_other _ _ _ _ hid,
          if_congr (window_shift a n id hid ((s id).isSome = true)) rfl rfl]

theorem jsonLoad_enc (s : Store) (w h : ℕ)
    (hVal : ∀ k x y, s k = some (x, y) → 0 ≤ x ∧ x ≤ 1 ∧ 0 ≤ y ∧ y ≤ 1)
    (hw : 0 < w) (hh : 0 < h) :
    ∀ (n a : ℕ), a + n ≤ 68 → ∀ st0 : Store,
      loadJsonLoop w h (((List.range' a n).map (structEntry s)).map toRaw) st0
        = (fun id =>
            if (a : ℤ) + 1 ≤ id ∧ id ≤ (a : ℤ) + (n : ℤ) ∧ (s id).isSome = true
            then round6Store s id else st0 id, false)
  | 0, a, _, st0 => by
    rw [List.range'_zero, List.map_nil, List.map_nil]
    show (st0, false) = _
    simp only [Prod.mk.injEq]
    refine ⟨funext fun id => ?_, trivial⟩
    exact (if_neg (by rintro ⟨h1, h2, _⟩; omega)).symm
  | n + 1, a, hle, st0 => by
    rw [List.range'_succ, List.map_cons, List.map_cons]
    cases hs : s ((a : ℤ) + 1) with
    | none =>
      have hentry : toRaw (structEntry s a)
          = ⟨some ((a : ℤ) + 1), some (-1), some (-1)⟩ := by
        simp [structEntry, toRaw, hs]
      rw [hentry]
      have hstep : loadJsonLoop w h
          (⟨some ((a : ℤ) + 1), some (-1), some (-1)⟩ ::
            ((List.range' (a + 1) n).map (structEntry s)).map toRaw) st0
          = loadJsonLoop w h
              (((List.range' (a + 1) n).map (structEntry s)).map toRaw) st0 := by
        simp only [loadJsonLoop]
        rw [if_pos (Or.inl (by norm_num))]
      rw [hstep, jsonLoad_enc s w h hVal hw hh n (a + 1) (by omega) st0]
      simp only [Prod.mk.injEq]
      refine ⟨funext fun id => ?_, trivial⟩
      by_cases hid : id = (a : ℤ) + 1
      · subst hid
        rw [if_neg (by rintro ⟨h1, _, _⟩; push_cast at h1; omega),
          if_neg (by rintro ⟨_, _, h3⟩; rw [hs] at h3; simp at h3)]
      · rw [if_congr (window_shift a n id hid ((s id).isSome = true)) rfl rfl]
    | some c =>
      obtain ⟨x, y⟩ := c
      obtain ⟨hx0, hx1, hy0, hy1⟩ := hVal _ _ _ hs
      have h0x : 0 ≤ round6 x := round6_nonneg x hx0
      have h0y : 0 ≤ round6 y := round6_nonneg y hy0
      have hentry : toRaw (structEntry s a)
          = ⟨some ((a : ℤ) + 1), some (round6 x), some (round6 y)⟩ := by
        simp [structEntry, toRaw, hs]
      rw [hentry]
      have hstep : loadJsonLoop w h
          (⟨some ((a : ℤ) + 1), some (round6 x), some (round6 y)⟩ ::
            ((List.range' (a + 1) n).map (structEntry s)).map toRaw) st0
          = loadJsonLoop w h
              (((List.range' (a + 1) n).map (structEntry s)).map toRaw)
              (setK st0 ((a : ℤ) + 1) (round6 x, round6 y)) := by
        simp only [loadJsonLoop]
        rw [if_neg (by push_neg; exact ⟨h0x, h0y⟩)]
        simp [ratio_to_pixel, hw, hh]
      rw [hstep, jsonLoad_enc s w h hVal hw hh n (a + 1) (by omega)
        (setK st0 ((a : ℤ) + 1) (round6 x, round6 y))]
      simp only [Prod.mk.injEq]
      refine ⟨funext fun id => ?_, trivial⟩
      by_cases hid : id = (a : ℤ) + 1
      · subst hid
        rw [if_neg (by rintro ⟨h1, _, _⟩; push_cast at h1; omega), setK_same,
          if_pos ⟨by omega, by push_cast; omega, by rw [hs]; rfl⟩]
        simp [round6Store, hs, round6C]
      · rw [setK_other _ _ _ _ hid,
          if_congr (window_shift a n id hid ((s id).isSome = true)) rfl rfl]

/-- C1: for a store whose keys lie in [1,68] and whose ratio coordinates
lie in [0,1], with an image loaded (positive dimensions), decoding the
delimited encoding gives back exactly the store with every coordinate
rounded to six decimals, and the structured (JSON) round trip gives the
same store with no warning. -/
theorem C1_roundtrip (s : Store) (w h : ℕ) (imgName : String)
    (hKeys : ∀ k : ℤ, s k ≠ none → 1 ≤ k ∧ k ≤ 68)
    (hVal : ∀ k x y, s k = some (x, y) → 0 ≤ x ∧ x ≤ 1 ∧ 0 ≤ y ∧ y ≤ 1)
    (hw : 0 < w) (hh : 0 < h) :
    decodeDelimited (encodeDelimited s) w h = Except.ok (round6Store s) ∧
    loadJsonAnnotations ((encodeStructured s imgName).keypoints.map toRaw) w h
      = (round6Store s, false) := by
  constructor
  · simp only [decodeDelimited, encodeDelimited_length]
    rw [if_neg (by omega)]
    have hbuild : buildTxtStore (encodeDelimited s) w h = round6Store s := by
      funext id
      show (List.range 68).foldl (txtStep (encodeDelimited s) w h) emptyStore id = _
      rw [List.range_eq_range' 68,
        txtLoad_enc s w h hVal hw hh 68 0 (by omega) emptyStore id]
      split
      · rfl
      · next hcond =>
        cases hsid : s id with
        | none => simp [emptyStore, round6Store, hsid]
        | some c =>
          exfalso
          obtain ⟨hk1, hk2⟩ := hKeys id (by rw [hsid]; simp)
          exact hcond ⟨by push_cast; omega, by push_cast; omega, by rw [hsid]; rfl⟩
    rw [hbuild]
  · have hkps : (encodeStructured s imgName).keypoints.map toRaw
        = ((List.range' 0 68).map (structEntry s)).map toRaw := by
      show ((List.range 68).map (structEntry s)).map toRaw = _
      rw [List.range_eq_range' 68]
    show loadJsonLoop w h ((encodeStructured s imgName).keypoints.map toRaw)
        emptyStore = _
    rw [hkps, jsonLoad_enc s w h hVal hw hh 68 0 (by omega) emptyStore]
    simp only [Prod.mk.injEq]
    refine ⟨funext fun id => ?_, trivial⟩
    split
    · rfl
    · next hcond =>
      cases hsid : s id with
      | none => simp [emptyStore, round6Store, hsid]
      | some c =>
        exfalso
        obtain ⟨hk1, hk2⟩ := hKeys id (by rw [hsid]; simp)
        exact hcond ⟨by push_cast; omega, by push_cast; omega, by rw [hsid]; rfl⟩

/-- A store with one annotated id (id 1 at the corner ratio `(0, 1)`),
keys within [1,68] and coordinates within [0,1]. -/
def roundTripStore : Store := fun k => if k = 1 then some (0, 1) else none

/-- C1 witness: the round trip on `roundTripStore` with an 800×600 image. -/
theorem C1_roundtrip_witness :
    decodeDelimited (encodeDelimited roundTripStore) 800 600
      = Except.ok (round6Store roundTripStore) ∧
    loadJsonAnnotations
        ((encodeStructured roundTripStore ("img.jpg")).keypoints.map toRaw)
        800 600
      = (round6Store roundTripStore, false) := by
  refine C1_roundtrip roundTripStore 800 600 ("img.jpg") ?_ ?_ (by norm_num)
    (by norm_num)
  · intro k hk
    by_cases h1 : k = 1
    · subst h1; constructor <;> norm_num
    · simp [roundTripStore, h1] at hk
  · intro k x y hxy
    by_cases h1 : k = 1
    · subst h1
      simp only [roundTripStore, if_pos rfl, Option.some.injEq, Prod.mk.injEq] at hxy
      obtain ⟨rfl, rfl⟩ := hxy.symm
      norm_num
    · simp [roundTripStore, h1] at hxy

/-- C9 witness for the amended statement: the 135-token file is rejected
by both programs under the 136-token rule, with their distinct messages. -/
theorem C9_same_rule_distinct_message_witness :
    convert_txt_to_json (List.replicate 135 (0 : ℚ)) ("img.jpg")
      = Except.error (convertCountErrorMsg 135) ∧
    decodeDelimited (List.replicate 135 (0 : ℚ)) 800 600
      = Except.error ⟨136, 135⟩ ∧
    loadTxtAnnotations (List.replicate 135 (0 : ℚ)) 800 600
      = (emptyStore, some (txtCountErrorMsg 135)) ∧
    convertCountErrorMsg 135 ≠ txtCountErrorMsg 135 := by
  have h := C9_same_rule_distinct_message (List.replicate 135 (0 : ℚ)) 800 600
    ("img.jpg") (by simp)
  simpa using h
